import Mathlib

/-!
Verification development for the `dermodyai-nou-demo` repository: two small
Python web backends (`bd-research-agent` and `proposal-agent`) that call an
LLM provider, reshape JSON and stream model output over Server-Sent Events.

Python strings are modelled as `List Char` (Python `len`/slicing count code
points, as does `List Char`).  JSON values are modelled by the inductive
`JVal`; JSON numbers are modelled as integers only — no claim involves
floating-point literals, which are outside the scope of this embedding.
The LLM provider is an external collaborator and is modelled as a function
parameter (a seam), as are the two government-data collaborators.
-/

/-- Conversion from a Lean string literal to the `List Char` model of Python
strings. -/
def lit (s : String) : List Char := s.toList

/-- ASCII whitespace recognised by Python's `str.strip()` and by `\s` in the
`re` module: space, tab, newline, carriage return, vertical tab, form feed.
(Python additionally treats some non-ASCII Unicode code points as whitespace;
no text in the repository or the claims involves those.) -/
def isPyWs (c : Char) : Bool :=
  c = ' ' || c = '\t' || c = '\n' || c = '\r' || c = '\x0b' || c = '\x0c'

/-- Python `str.strip()`: drop leading and trailing whitespace. -/
def pyStrip (cs : List Char) : List Char :=
  ((cs.dropWhile isPyWs).reverse.dropWhile isPyWs).reverse

/-- Model of the JSON values produced by Python's `json.loads`: objects are
association lists in key order.  Numbers are restricted to integers (see the
file comment). -/
inductive JVal where
  | null : JVal
  | bool (b : Bool) : JVal
  | num (n : Int) : JVal
  | str (s : List Char) : JVal
  | arr (elems : List JVal) : JVal
  | obj (fields : List (List Char × JVal)) : JVal

mutual

/-- Decidable equality of JSON values (the `deriving` handler does not cover
this nested inductive, so the instance is spelled out). -/
def jvalDeq : (a b : JVal) → Decidable (a = b)
  | .null, .null => isTrue rfl
  | .bool a, .bool b =>
      match decEq a b with
      | isTrue h => isTrue (by rw [h])
      | isFalse h => isFalse (by intro hc; cases hc; exact h rfl)
  | .num a, .num b =>
      match decEq a b with
      | isTrue h => isTrue (by rw [h])
      | isFalse h => isFalse (by intro hc; cases hc; exact h rfl)
  | .str a, .str b =>
      match decEq a b with
      | isTrue h => isTrue (by rw [h])
      | isFalse h => isFalse (by intro hc; cases hc; exact h rfl)
  | .arr a, .arr b =>
      match jvalListDeq a b with
      | isTrue h => isTrue (by rw [h])
      | isFalse h => isFalse (by intro hc; cases hc; exact h rfl)
  | .obj a, .obj b =>
      match jvalFieldsDeq a b with
      | isTrue h => isTrue (by rw [h])
      | isFalse h => isFalse (by intro hc; cases hc; exact h rfl)
  | .null, .bool _ => isFalse (by intro h; cases h)
  | .null, .num _ => isFalse (by intro h; cases h)
  | .null, .str _ => isFalse (by intro h; cases h)
  | .null, .arr _ => isFalse (by intro h; cases h)
  | .null, .obj _ => isFalse (by intro h; cases h)
  | .bool _, .null => isFalse (by intro h; cases h)
  | .bool _, .num _ => isFalse (by intro h; cases h)
  | .bool _, .str _ => isFalse (by intro h; cases h)
  | .bool _, .arr _ => isFalse (by intro h; cases h)
  | .bool _, .obj _ => isFalse (by intro h; cases h)
  | .num _, .null => isFalse (by intro h; cases h)
  | .num _, .bool _ => isFalse (by intro h; cases h)
  | .num _, .str _ => isFalse (by intro h; cases h)
  | .num _, .arr _ => isFalse (by intro h; cases h)
  | .num _, .obj _ => isFalse (by intro h; cases h)
  | .str _, .null => isFalse (by intro h; cases h)
  | .str _, .bool _ => isFalse (by intro h; cases h)
  | .str _, .num _ => isFalse (by intro h; cases h)
  | .str _, .arr _ => isFalse (by intro h; cases h)
  | .str _, .obj _ => isFalse (by intro h; cases h)
  | .arr _, .null => isFalse (by intro h; cases h)
  | .arr _, .bool _ => isFalse (by intro h; cases h)
  | .arr _, .num _ => isFalse (by intro h; cases h)
  | .arr _, .str _ => isFalse (by intro h; cases h)
  | .arr _, .obj _ => isFalse (by intro h; cases h)
  | .obj _, .null => isFalse (by intro h; cases h)
  | .obj _, .bool _ => isFalse (by intro h; cases h)
  | .obj _, .num _ => isFalse (by intro h; cases h)
  | .obj _, .str _ => isFalse (by intro h; cases h)
  | .obj _, .arr _ => isFalse (by intro h; cases h)

def jvalListDeq : (a b : List JVal) → Decidable (a = b)
  | [], [] => isTrue rfl
  | [], _ :: _ => isFalse (by intro h; cases h)
  | _ :: _, [] => isFalse (by intro h; cases h)
  | x :: xs, y :: ys =>
      match jvalDeq x y, jvalListDeq xs ys with
      | isTrue h1, isTrue h2 => isTrue (by rw [h1, h2])
      | isFalse h1, _ => isFalse (by intro hc; cases hc; exact h1 rfl)
      | _, isFalse h2 => isFalse (by intro hc; cases hc; exact h2 rfl)

def jvalFieldsDeq : (a b : List (List Char × JVal)) → Decidable (a = b)
  | [], [] => isTrue rfl
  | [], _ :: _ => isFalse (by intro h; cases h)
  | _ :: _, [] => isFalse (by intro h; cases h)
  | (k1, v1) :: xs, (k2, v2) :: ys =>
      match decEq k1 k2, jvalDeq v1 v2, jvalFieldsDeq xs ys with
      | isTrue h1, isTrue h2, isTrue h3 => isTrue (by rw [h1, h2, h3])
      | isFalse h1, _, _ => isFalse (by intro hc; cases hc; exact h1 rfl)
      | _, isFalse h2, _ => isFalse (by intro hc; cases hc; exact h2 rfl)
      | _, _, isFalse h3 => isFalse (by intro hc; cases hc; exact h3 rfl)

end

instance : DecidableEq JVal := jvalDeq

/-- Python `dict.get(k)` on an association list: the LAST binding wins, which
is how `json.loads` builds a `dict` when a key is repeated. -/
def lookupField (fs : List (List Char × JVal)) (k : List Char) : Option JVal :=
  fs.foldl (fun acc p => if p.1 = k then some p.2 else acc) none

/-- Python truthiness (`if not x`) of a decoded JSON value. -/
def pyFalsy (v : JVal) : Bool :=
  match v with
  | .null => true
  | .bool b => !b
  | .num n => n = 0
  | .str s => s.isEmpty
  | .arr xs => xs.isEmpty
  | .obj fs => fs.isEmpty

/-- Embedding of `re.sub(r"^```(?:json)?\s*", "", raw)` from
`bd-research-agent/agent.py` and `proposal-agent/agent.py`: the anchored
pattern matches at most once, greedily preferring the `json` tag (the match
is case-SENSITIVE: the source passes no `re.IGNORECASE` flag), then consumes
the maximal following whitespace run. -/
def stripLeadingFence : List Char → List Char
  | '\x60' :: '\x60' :: '\x60' :: 'j' :: 's' :: 'o' :: 'n' :: rest =>
      rest.dropWhile isPyWs
  | '\x60' :: '\x60' :: '\x60' :: rest => rest.dropWhile isPyWs
  | cs => cs

/-- Embedding of `re.sub(r"\s*```$", "", raw)`: remove a terminal backtick
fence together with the maximal whitespace run immediately before it.
(Python's `$` would also match just before a terminal newline, but this
function is only ever applied after `str.strip()`, whose output cannot end
in whitespace, so that case is unreachable in the pipeline.) -/
def stripTrailingFence (cs : List Char) : List Char :=
  match cs.reverse with
  | '\x60' :: '\x60' :: '\x60' :: rest => (rest.dropWhile isPyWs).reverse
  | _ => cs

/-- The reply-cleaning sequence shared by `score_opportunities`,
`extract_requirements` and `match_capabilities`:
`raw = response.content[0].text.strip()` followed by the two fence-stripping
substitutions. -/
def cleanReply (reply : List Char) : List Char :=
  stripTrailingFence (stripLeadingFence (pyStrip reply))

/-! ### Model of Python `json.dumps` (default flags: `ensure_ascii=True`) -/

/-- Lowercase hexadecimal digit, as used by `json.dumps` in `\uXXXX` escapes. -/
def hexDigit (n : Nat) : Char :=
  if n < 10 then Char.ofNat (48 + n) else Char.ofNat (87 + n)

/-- Four-digit lowercase hexadecimal rendering of a code unit. -/
def hex4 (n : Nat) : List Char :=
  [hexDigit (n / 4096 % 16), hexDigit (n / 256 % 16), hexDigit (n / 16 % 16), hexDigit (n % 16)]

/-- Escaping of one character inside a JSON string literal, following
CPython's `json` encoder with `ensure_ascii=True`: everything outside
`0x20..0x7e` is escaped, astral code points as a surrogate pair. -/
def escapeJsonChar (c : Char) : List Char :=
  if c = '"' then ['\\', '"']
  else if c = '\\' then ['\\', '\\']
  else if c = '\n' then ['\\', 'n']
  else if c = '\t' then ['\\', 't']
  else if c = '\r' then ['\\', 'r']
  else if c = '\x08' then ['\\', 'b']
  else if c = '\x0c' then ['\\', 'f']
  else if c.toNat < 0x20 || c.toNat > 0x7e then
    if c.toNat ≥ 0x10000 then
      let v := c.toNat - 0x10000
      '\\' :: 'u' :: hex4 (0xd800 + v / 0x400) ++ '\\' :: 'u' :: hex4 (0xdc00 + v % 0x400)
    else
      '\\' :: 'u' :: hex4 c.toNat
  else [c]

/-- A JSON string literal: quotes around the escaped characters. -/
def jstr (s : List Char) : List Char :=
  '"' :: (s.map escapeJsonChar).flatten ++ ['"']

/-- Decimal rendering of an integer (Python renders `int` the same way). -/
def intRepr (n : Int) : List Char := (toString n).toList

mutual

/-- Model of `json.dumps(v)` with no `indent`: CPython's default separators
are `", "` between items and `": "` after keys. -/
def jdumps : JVal → List Char
  | .null => lit "null"
  | .bool true => lit "true"
  | .bool false => lit "false"
  | .num n => intRepr n
  | .str s => jstr s
  | .arr xs => '[' :: jdumpsList xs ++ [']']
  | .obj fs => '\x7b' :: jdumpsFields fs ++ ['\x7d']

def jdumpsList : List JVal → List Char
  | [] => []
  | [x] => jdumps x
  | x :: y :: xs => jdumps x ++ ',' :: ' ' :: jdumpsList (y :: xs)

def jdumpsFields : List (List Char × JVal) → List Char
  | [] => []
  | [(k, v)] => jstr k ++ ':' :: ' ' :: jdumps v
  | (k, v) :: f :: fs => jstr k ++ ':' :: ' ' :: jdumps v ++ ',' :: ' ' :: jdumpsFields (f :: fs)

end

/-- Indentation padding: `json.dumps(..., indent=2)` indents each level by
two spaces. -/
def jpad (level : Nat) : List Char := List.replicate (2 * level) ' '

mutual

/-- Model of `json.dumps(v, indent=2)`: with an `indent`, CPython switches
the item separator to `","` followed by a newline and padding, and keeps
`": "` after keys.  (`default=str` in the source only affects values that
are not JSON-serializable, which cannot arise for `JVal`.) -/
def jdumpsIndent : Nat → JVal → List Char
  | _, .null => lit "null"
  | _, .bool true => lit "true"
  | _, .bool false => lit "false"
  | _, .num n => intRepr n
  | _, .str s => jstr s
  | _, .arr [] => lit "[]"
  | level, .arr (x :: xs) =>
      '[' :: '\n' :: jdumpsIndentItems (level + 1) (x :: xs) ++ '\n' :: jpad level ++ [']']
  | _, .obj [] => lit "\x7b\x7d"
  | level, .obj (f :: fs) =>
      '\x7b' :: '\n' :: jdumpsIndentFields (level + 1) (f :: fs) ++ '\n' :: jpad level ++ ['\x7d']

def jdumpsIndentItems : Nat → List JVal → List Char
  | _, [] => []
  | level, [x] => jpad level ++ jdumpsIndent level x
  | level, x :: y :: xs =>
      jpad level ++ jdumpsIndent level x ++ ',' :: '\n' :: jdumpsIndentItems level (y :: xs)

def jdumpsIndentFields : Nat → List (List Char × JVal) → List Char
  | _, [] => []
  | level, [(k, v)] => jpad level ++ jstr k ++ ':' :: ' ' :: jdumpsIndent level v
  | level, (k, v) :: f :: fs =>
      jpad level ++ jstr k ++ ':' :: ' ' :: jdumpsIndent level v ++
        ',' :: '\n' :: jdumpsIndentFields level (f :: fs)

end

/-! ### Model of Python `json.loads`

The parser follows CPython's strict JSON decoder: JSON whitespace is
` \t\n\r`; strings reject unescaped control characters and unknown escapes;
numbers reject leading zeros.  Restrictions of the model (none reachable by
any claim): number literals with a fraction or exponent, the constants
`Infinity`/`-Infinity`/`NaN` (floats are outside the embedding), and
surrogate `\uXXXX` escapes are not decoded (the model rejects them, where
CPython would produce `float` values or surrogate code units). -/

/-- JSON whitespace accepted between tokens by `json.loads`. -/
def isJsonWs (c : Char) : Bool :=
  c = ' ' || c = '\t' || c = '\n' || c = '\r'

/-- Skip JSON whitespace. -/
def skipJsonWs (cs : List Char) : List Char := cs.dropWhile isJsonWs

/-- Value of a hexadecimal digit in a `\uXXXX` escape. -/
def hexVal (c : Char) : Option Nat :=
  if '0' ≤ c ∧ c ≤ '9' then some (c.toNat - 48)
  else if 'a' ≤ c ∧ c ≤ 'f' then some (c.toNat - 87)
  else if 'A' ≤ c ∧ c ≤ 'F' then some (c.toNat - 55)
  else none

/-- Single-character escapes accepted inside JSON strings. -/
def escMap (c : Char) : Option Char :=
  if c = '"' then some '"'
  else if c = '\\' then some '\\'
  else if c = '/' then some '/'
  else if c = 'b' then some '\x08'
  else if c = 'f' then some '\x0c'
  else if c = 'n' then some '\n'
  else if c = 'r' then some '\r'
  else if c = 't' then some '\t'
  else none

/-- Parse the body of a JSON string (the opening quote already consumed),
returning the decoded characters and the remaining input. -/
def parseStringBody : List Char → Option (List Char × List Char)
  | [] => none
  | '"' :: rest => some ([], rest)
  | '\\' :: 'u' :: h1 :: h2 :: h3 :: h4 :: rest => do
      let n1 ← hexVal h1
      let n2 ← hexVal h2
      let n3 ← hexVal h3
      let n4 ← hexVal h4
      let n := n1 * 4096 + n2 * 256 + n3 * 16 + n4
      if 0xd800 ≤ n ∧ n ≤ 0xdfff then none
      else do
        let p ← parseStringBody rest
        some (Char.ofNat n :: p.1, p.2)
  | '\\' :: e :: rest => do
      let c ← escMap e
      let p ← parseStringBody rest
      some (c :: p.1, p.2)
  | c :: rest =>
      if c.toNat < 0x20 then none
      else do
        let p ← parseStringBody rest
        some (c :: p.1, p.2)

/-- Numeric value of a digit run (most significant first). -/
def natOfDigits (ds : List Char) : Nat :=
  ds.foldl (fun a c => a * 10 + (c.toNat - 48)) 0

/-- Parse a JSON integer literal: optional minus sign, digits with no
leading zero; a following `.`, `e` or `E` (a float literal) is rejected by
the model. -/
def parseNumber (cs : List Char) : Option (Int × List Char) :=
  let (neg, cs1) := match cs with
    | '-' :: r => (true, r)
    | _ => (false, cs)
  match cs1 with
  | c :: _ =>
      if c.isDigit then
        let ds := cs1.takeWhile Char.isDigit
        let rest := cs1.dropWhile Char.isDigit
        if 1 < ds.length ∧ ds.headI = '0' then none
        else
          match rest with
          | '.' :: _ => none
          | 'e' :: _ => none
          | 'E' :: _ => none
          | _ =>
              let n : Int := natOfDigits ds
              some (if neg then -n else n, rest)
      else none
  | [] => none

mutual

/-- Parse one JSON value (fuel-indexed to make the recursion structural). -/
def parseVal : Nat → List Char → Option (JVal × List Char)
  | 0, _ => none
  | fuel + 1, cs =>
      match skipJsonWs cs with
      | [] => none
      | '"' :: rest => do
          let p ← parseStringBody rest
          some (.str p.1, p.2)
      | '[' :: rest =>
          (match skipJsonWs rest with
           | ']' :: r2 => some (.arr [], r2)
           | cs2 => do
               let p ← parseElems fuel cs2
               some (.arr p.1, p.2))
      | '\x7b' :: rest =>
          (match skipJsonWs rest with
           | '\x7d' :: r2 => some (.obj [], r2)
           | cs2 => do
               let p ← parseFields fuel cs2
               some (.obj p.1, p.2))
      | 't' :: 'r' :: 'u' :: 'e' :: rest => some (.bool true, rest)
      | 'f' :: 'a' :: 'l' :: 's' :: 'e' :: rest => some (.bool false, rest)
      | 'n' :: 'u' :: 'l' :: 'l' :: rest => some (.null, rest)
      | cs1 => do
          let p ← parseNumber cs1
          some (.num p.1, p.2)

/-- Parse the elements of a non-empty JSON array, up to and including the
closing bracket. -/
def parseElems : Nat → List Char → Option (List JVal × List Char)
  | 0, _ => none
  | fuel + 1, cs => do
      let (v, r) ← parseVal fuel cs
      match skipJsonWs r with
      | ',' :: r2 => do
          let p ← parseElems fuel r2
          some (v :: p.1, p.2)
      | ']' :: r2 => some ([v], r2)
      | _ => none

/-- Parse the fields of a non-empty JSON object, up to and including the
closing brace. -/
def parseFields : Nat → List Char → Option (List (List Char × JVal) × List Char)
  | 0, _ => none
  | fuel + 1, cs =>
      match skipJsonWs cs with
      | '"' :: r => do
          let (k, r1) ← parseStringBody r
          match skipJsonWs r1 with
          | ':' :: r2 => do
              let (v, r3) ← parseVal fuel r2
              match skipJsonWs r3 with
              | ',' :: r4 => do
                  let p ← parseFields fuel r4
                  some ((k, v) :: p.1, p.2)
              | '\x7d' :: r4 => some ([(k, v)], r4)
              | _ => none
          | _ => none
      | _ => none

end

/-- Model of `json.loads`: parse one JSON value and require only whitespace
to follow. -/
def jsonLoads (cs : List Char) : Option JVal :=
  match parseVal (cs.length + 1) cs with
  | some (v, rest) => if skipJsonWs rest = [] then some v else none
  | none => none

/-! ### Batch scorer (`bd-research-agent/agent.py`, `score_opportunities`) -/

/-- Python exceptions that the modelled code can raise past its own handlers
(`json.JSONDecodeError` is the only exception the steps catch). -/
inductive PyErr where
  | attributeError : PyErr
  | typeError : PyErr
deriving DecidableEq

/-- The sort key of one scored element: `x.get("pursuit_score", 0)`.
Calling `.get` on a non-`dict` raises `AttributeError` (uncaught in the
source: the `except` clause covers only `json.JSONDecodeError`). -/
def pursuitKey (x : JVal) : Except PyErr JVal :=
  match x with
  | .obj fs => .ok ((lookupField fs (lit "pursuit_score")).getD (.num 0))
  | _ => .error .attributeError

/-- Comparison value of a sort key.  Python orders `int` and `bool` together
(`True == 1`, `False == 0`); other key types are not mutually comparable
with the `0` default and make `sorted` raise `TypeError`.  (For a reply
whose keys are ALL strings CPython would sort them lexicographically; the
model folds that unreachable-by-any-claim case into `TypeError` as well.) -/
def keyAsInt (v : JVal) : Option Int :=
  match v with
  | .num n => some n
  | .bool b => some (if b then 1 else 0)
  | _ => none

/-- Stable descending insertion: an element moves ahead of another exactly
when its key is strictly larger, so equal keys keep their original order —
the behaviour of Python's stable `sorted(..., reverse=True)`. -/
def insertDesc (p : JVal × Int) : List (JVal × Int) → List (JVal × Int)
  | [] => [p]
  | q :: qs => if q.2 ≤ p.2 then p :: q :: qs else q :: insertDesc p qs

/-- Stable descending sort by the attached integer key; agrees with
`sorted(xs, key=..., reverse=True)` because a stable sort is determined by
sortedness, stability and the multiset of elements. -/
def sortDesc (l : List (JVal × Int)) : List (JVal × Int) :=
  l.foldr insertDesc []

/-- Total description of the pursuit key used in theorem statements: the
`pursuit_score` value of an object, defaulting to `0`, coerced as Python
comparison would coerce it. -/
def pursuitInt (x : JVal) : Int :=
  match x with
  | .obj fs =>
      match (lookupField fs (lit "pursuit_score")).getD (.num 0) with
      | .num n => n
      | .bool b => if b then 1 else 0
      | _ => 0
  | _ => 0

/-- The stable descending order the scorer produces on a well-formed array. -/
def pySortedDesc (xs : List JVal) : List JVal :=
  (sortDesc (xs.zip (xs.map pursuitInt))).map Prod.fst

/-- The sort keys of all elements, in order, or the first exception raised
(CPython's `sorted` computes every key before it compares any). -/
def pursuitKeys : List JVal → Except PyErr (List JVal)
  | [] => .ok []
  | x :: xs =>
      match pursuitKey x with
      | .error e => .error e
      | .ok k =>
          match pursuitKeys xs with
          | .error e => .error e
          | .ok ks => .ok (k :: ks)

/-- Comparison values of all keys, or `none` when some key is not an
`int`/`bool` (the `TypeError` case of the comparison, see `keyAsInt`). -/
def keysAsInts : List JVal → Option (List Int)
  | [] => some []
  | k :: ks =>
      match keyAsInt k with
      | none => none
      | some n =>
          match keysAsInts ks with
          | none => none
          | some ns => some (n :: ns)

/-- Post-parse handling of the scorer (`agent.py` lines 101-104): an array is
sorted descending by `x.get("pursuit_score", 0)` (stable); any other JSON
value is returned unchanged. -/
def scorePost (scored : JVal) : Except PyErr JVal :=
  match scored with
  | .arr xs =>
      match pursuitKeys xs with
      | .error e => .error e
      | .ok keys =>
          match keysAsInts keys with
          | some ints => .ok (.arr ((sortDesc (xs.zip ints)).map Prod.fst))
          | none => .error .typeError
  | v => .ok v

/-- Reply handling of `score_opportunities` (`agent.py` lines 97-106): strip,
remove fences, parse; a `json.JSONDecodeError` becomes the marker list
`[{"parse_error": raw[:300]}]`. -/
def scoreReplyResult (reply : List Char) : Except PyErr JVal :=
  let raw := cleanReply reply
  match jsonLoads raw with
  | some scored => scorePost scored
  | none => .ok (.arr [.obj [(lit "parse_error", .str (raw.take 300))]])

/-- Reply handling of `extract_requirements` (`proposal-agent/agent.py`
lines 59-66): same cleaning, but the parse-failure marker is the dict
`{"parse_error": raw}` carrying the WHOLE raw reply. -/
def extractReplyResult (reply : List Char) : JVal :=
  let raw := cleanReply reply
  match jsonLoads raw with
  | some v => v
  | none => .obj [(lit "parse_error", .str raw)]

/-- Reply handling of `match_capabilities` (`proposal-agent/agent.py`
lines 120-126): textually identical to `extract_requirements`. -/
def matchReplyResult (reply : List Char) : JVal :=
  let raw := cleanReply reply
  match jsonLoads raw with
  | some v => v
  | none => .obj [(lit "parse_error", .str raw)]

/-- `COMPANY_CONTEXT` from `bd-research-agent/agent.py` lines 26-39. -/
def COMPANY_CONTEXT : List Char := lit
  "\nNOU Systems is a small defense contractor headquartered in Huntsville, AL.\nCore competencies:\n- Systems Engineering & MBSE (SysML, DOORS NG, Cameo)\n- Modeling & Simulation (LVC, HLA/DIS, AFSIM, physics-based)\n- Cybersecurity & RMF (NIST, DISA STIG, ATO support, Zero Trust)\n- Digital Engineering (digital twins, digital thread, MOSA)\n- Test & Evaluation (TEMP, DT&E/OT&E support, data analysis)\n\nTypical contracts: $1M–$50M, 3–5 year PoP, prime or major sub\nTarget agencies: Army (RDECOM/AFC/PEO), Air Force (AFLCMC, AFRL), MDA, DARPA\nStrong Huntsville presence; can support Redstone Arsenal programs\nSmall business — eligible for SBA, 8(a), WOSB set-asides\n"

/-- `SCORE_USER.format(company=..., data=...)` from `agent.py` lines 50-74:
the template text with the two placeholders interpolated (`{{`/`}}` in the
Python source render as literal braces). -/
def scoreUserFmt (company data : List Char) : List Char :=
  lit "Evaluate these contract opportunities/awards for NOU Systems.\n\nCOMPANY PROFILE:\n"
  ++ company
  ++ lit "\n\nOPPORTUNITIES/AWARDS DATA:\n"
  ++ data
  ++ lit "\n\nFor each item, return a JSON array where each element has:\n\x7b\n  \"id\": \"the award_id or notice_id or sol_number\",\n  \"title\": \"short title (max 60 chars)\",\n  \"pursuit_score\": 1-10,\n  \"priority\": \"High\" | \"Medium\" | \"Low\" | \"Monitor\",\n  \"rationale\": \"1-2 sentences on fit\",\n  \"key_factors\": [\"2-3 bullet factors\"],\n  \"estimated_value_m\": estimated value in $M as a number or null,\n  \"deadline\": \"response deadline or end date, or null\",\n  \"agency_short\": \"short agency name\",\n  \"naics\": \"NAICS code\",\n  \"set_aside\": \"set-aside type or 'Full & Open'\",\n  \"flags\": [\"list of notable flags: e.g. 'Recompete', 'Incumbent Risk', 'Expiring Soon', 'AL location', 'Small Biz Only']\n\x7d\n\nReturn ONLY the JSON array, nothing else."

/-- `SCORE_SYSTEM` from `agent.py` lines 46-48. -/
def SCORE_SYSTEM : List Char := lit
  "You are a BD analyst for a defense contractor. Your job is to\nevaluate contract opportunities and awards for strategic fit. Be concise and realistic.\nRespond with valid JSON only — no markdown fences."

/-- The `data` payload built for the model call (`agent.py` lines 82-84):
`json.dumps(opportunities[:30], indent=2, default=str)`. -/
def scoreDataStr (opportunities : List JVal) : List Char :=
  jdumpsIndent 0 (.arr (opportunities.take 30))

/-- The user prompt of the scoring call (`agent.py` lines 90-95). -/
def scoreUserPrompt (opportunities : List JVal) : List Char :=
  scoreUserFmt COMPANY_CONTEXT (scoreDataStr opportunities)

/-- `score_opportunities` (`agent.py` lines 77-106) with the provider as a
seam: `call system user` returns the text of the model reply.  An empty
input returns `[]` before any prompt is built or the seam is invoked. -/
def score_opportunities (call : List Char → List Char → List Char)
    (opportunities : List JVal) : Except PyErr JVal :=
  if opportunities = [] then .ok (.arr [])
  else scoreReplyResult (call SCORE_SYSTEM (scoreUserPrompt opportunities))

/-! ### Market context builder (`bd-research-agent/agent.py`,
`build_market_context`, lines 180-190) -/

/-- Digit run of a natural number, most significant first. -/
def natDigits (n : Nat) : List Char := (Nat.repr n).toList

/-- Insert a comma after every three characters of a REVERSED digit run. -/
def groupRev : List Char → List Char
  | a :: b :: c :: d :: rest => a :: b :: c :: ',' :: groupRev (d :: rest)
  | l => l

/-- Python `f"{amount:,.0f}"` on an integer amount: decimal digits with a
thousands separator every three digits (exact for any `Int`; CPython goes
through `float`, whose rounding could only matter beyond 2^53, far outside
any value in the claims). -/
def formatComma (n : Int) : List Char :=
  (if n < 0 then ['-'] else []) ++ (groupRev (natDigits n.natAbs).reverse).reverse

/-- Python `str()` of a decoded JSON value, as an f-string interpolates it.
Containers render in `repr` style; only `str` and `int` values reach this
function in any claim, and those cases are exact. -/
def pyStr (v : JVal) : List Char :=
  match v with
  | .str s => s
  | .num n => intRepr n
  | .bool true => lit "True"
  | .bool false => lit "False"
  | .null => lit "None"
  | .arr _ => lit "[...]"
  | .obj _ => lit "\x7b...\x7d"

/-- One line of the market context: `f"  - {name}: ${amount:,.0f}"` with
`name = r.get("name", "Unknown")` and `amount = r.get("aggregated_amount", 0)`.
A non-`dict` entry raises `AttributeError` (`.get`); a non-numeric amount
makes the `,.0f` format spec raise `TypeError`. -/
def renderSpendLine (r : JVal) : Except PyErr (List Char) :=
  match r with
  | .obj fs =>
      match (lookupField fs (lit "aggregated_amount")).getD (.num 0) with
      | .num n =>
          .ok (lit "  - " ++ pyStr ((lookupField fs (lit "name")).getD (.str (lit "Unknown")))
            ++ lit ": $" ++ formatComma n)
      | _ => .error .typeError
  | _ => .error .attributeError

/-- Total description of one rendered line, used in theorem statements. -/
def spendLine (r : JVal) : List Char :=
  match r with
  | .obj fs =>
      match (lookupField fs (lit "aggregated_amount")).getD (.num 0) with
      | .num n =>
          lit "  - " ++ pyStr ((lookupField fs (lit "name")).getD (.str (lit "Unknown")))
            ++ lit ": $" ++ formatComma n
      | _ => []
  | _ => []

/-- Whether one record renders without an exception. -/
def spendOk (r : JVal) : Bool :=
  match r with
  | .obj fs =>
      match (lookupField fs (lit "aggregated_amount")).getD (.num 0) with
      | .num _ => true
      | _ => false
  | _ => false

/-- Decidable equality of `Except` results (not provided by the library). -/
instance {ε α : Type} [DecidableEq ε] [DecidableEq α] : DecidableEq (Except ε α) := by
  intro a b
  cases a <;> cases b
  case error.error e1 e2 =>
    exact match decEq e1 e2 with
    | isTrue h => isTrue (by rw [h])
    | isFalse h => isFalse (by intro hc; cases hc; exact h rfl)
  case ok.ok v1 v2 =>
    exact match decEq v1 v2 with
    | isTrue h => isTrue (by rw [h])
    | isFalse h => isFalse (by intro hc; cases hc; exact h rfl)
  case error.ok e v => exact isFalse (by intro hc; cases hc)
  case ok.error v e => exact isFalse (by intro hc; cases hc)

/-- The header line pushed before the rendered records. -/
def marketHeader : List Char :=
  lit "Top DoD sub-agencies by contract spend (selected NAICS):"

/-- Rendering of the (at most ten) records taken, in order, or the first
exception raised. -/
def renderSpendLines : List JVal → Except PyErr (List (List Char))
  | [] => .ok []
  | r :: rs =>
      match renderSpendLine r with
      | .error e => .error e
      | .ok l =>
          match renderSpendLines rs with
          | .error e => .error e
          | .ok ls => .ok (l :: ls)

/-- `build_market_context(agency_spending)`: `results = .get("results", [])`;
a falsy `results` yields the fixed sentinel; otherwise the first ten records
are rendered one line each and joined with newlines under the header.
(A truthy non-list `results` value would make Python iterate something else,
e.g. the characters of a string, before failing on `.get`; the model folds
that unreachable-by-any-claim case into `TypeError`.) -/
def build_market_context (agency_spending : JVal) : Except PyErr (List Char) :=
  match agency_spending with
  | .obj fs =>
      let results := (lookupField fs (lit "results")).getD (.arr [])
      if pyFalsy results then .ok (lit "No aggregate spending data available.")
      else
        match results with
        | .arr rs =>
            match renderSpendLines (rs.take 10) with
            | .ok ls => .ok (List.intercalate (lit "\n") (marketHeader :: ls))
            | .error e => .error e
        | _ => .error .typeError
  | _ => .error .attributeError

/-! ### Streaming composers and their SSE wrappers -/

/-- Outcome of one provider streaming session as the composer consumes it:
the text fragments delivered in order, then optionally a provider error
raised mid-stream (after the listed fragments, instead of a normal end). -/
structure StreamOutcome where
  fragments : List (List Char)
  error : Option (List Char)

/-- The `event_stream` inner generator shared textually by
`bd-research-agent/main.py` (lines 146-153) and `proposal-agent/main.py`
(lines 98-106): every chunk the composer yields becomes the SSE line
`f"data: {json.dumps({'text': chunk})}\n\n"`; an exception becomes one
`data: {"error": ...}` line; the `data: [DONE]` sentinel always follows. -/
def sseEventStream (chunks : List JVal) (err : Option (List Char)) : List (List Char) :=
  chunks.map (fun chunk => lit "data: " ++ jdumps (.obj [(lit "text", chunk)]) ++ lit "\n\n")
  ++ (match err with
      | some e => [lit "data: " ++ jdumps (.obj [(lit "error", .str e)]) ++ lit "\n\n"]
      | none => [])
  ++ [lit "data: [DONE]\n\n"]

/-- `stream_brief` (`bd-research-agent/agent.py` lines 151-177) yields the
provider text fragments themselves (plain strings); a provider error
propagates out of the generator after the delivered fragments. -/
def stream_brief (s : StreamOutcome) : List JVal × Option (List Char) :=
  (s.fragments.map .str, s.error)

/-- The `/api/brief` SSE line sequence (`bd-research-agent/main.py`). -/
def bdEventStream (s : StreamOutcome) : List (List Char) :=
  sseEventStream (stream_brief s).1 (stream_brief s).2

/-- `stream_draft` (`proposal-agent/agent.py` lines 188-231) yields DICTS:
`{"text": text}` per fragment and, after a normal end of stream, a final
`{"stop_reason": final.stop_reason}` event (skipped when the provider
errors, since the exception aborts the generator first). -/
def stream_draft (s : StreamOutcome) (stop_reason : JVal) : List JVal × Option (List Char) :=
  (s.fragments.map (fun t => .obj [(lit "text", .str t)])
     ++ (match s.error with
         | none => [.obj [(lit "stop_reason", stop_reason)]]
         | some _ => []),
   s.error)

/-- The `/api/draft` SSE line sequence (`proposal-agent/main.py`). -/
def proposalEventStream (s : StreamOutcome) (stop_reason : JVal) : List (List Char) :=
  sseEventStream (stream_draft s stop_reason).1 (stream_draft s stop_reason).2

/-! ### The `/api/research` endpoint (`bd-research-agent/main.py`,
`research`, lines 54-124).  The two data collaborators are seams: the
USASpending fetch+normalize either returns records or raises, and the
SAM.gov branch distinguishes the no-key case, success, an
`httpx.HTTPStatusError` with a status code, and any other exception. -/

/-- Outcome of the optional SAM.gov branch. -/
inductive SamCall where
  | noKey : SamCall
  | fetched (opps : List JVal) : SamCall
  | httpStatus (code : Nat) : SamCall
  | exn (msg : List Char) : SamCall

/-- Records the SAM.gov branch contributes to `all_items`. -/
def samItems : SamCall → List JVal
  | .fetched opps => opps
  | _ => []

/-- The `sam_status` string the endpoint reports (lines 83, 94, 97, 100, 103). -/
def samStatus : SamCall → List Char
  | .noKey => lit "not_configured"
  | .fetched opps => lit "ok (" ++ natDigits opps.length ++ lit " opportunities)"
  | .httpStatus code => if code = 403 then lit "invalid_key" else lit "error"
  | .exn _ => lit "error"

/-- Error-list entries the SAM.gov branch appends (lines 98, 101, 104). -/
def samErrors : SamCall → List (List Char)
  | .noKey => []
  | .fetched _ => []
  | .httpStatus code =>
      if code = 403 then [lit "SAM.gov: Invalid or expired API key."]
      else [lit "SAM.gov HTTP " ++ natDigits code]
  | .exn msg => [lit "SAM.gov error: " ++ msg]

/-- `all_items` after both collaborator branches (lines 68-93). -/
def collectedItems (usa : Except (List Char) (List JVal)) (sam : SamCall) : List JVal :=
  (match usa with
   | .ok items => items
   | .error _ => []) ++ samItems sam

/-- `errors` after both collaborator branches (lines 69-104): a USASpending
exception is appended first (line 80), then any SAM.gov entry. -/
def collabErrors (usa : Except (List Char) (List JVal)) (sam : SamCall) : List (List Char) :=
  (match usa with
   | .ok _ => []
   | .error e => [lit "USASpending.gov error: " ++ e]) ++ samErrors sam

/-- The JSON body of a successful `/api/research` response (lines 118-124;
the `naics_codes` echo is request-derived and claim-irrelevant, so it is
not modelled). -/
structure ResearchResponse where
  scored : JVal
  raw_count : Nat
  sam_status : List Char
  errors : List (List Char)
deriving DecidableEq

/-- The `research` endpoint after the collaborator calls: abort with
`HTTPException(502, "; ".join(errors))` when `not all_items and errors`
(line 106-107); otherwise score `all_items` when non-empty, downgrading a
scoring exception to an `errors` entry (lines 110-116), and return the
response body. -/
def research (usa : Except (List Char) (List JVal)) (sam : SamCall)
    (scoreFn : List JVal → Except (List Char) JVal) :
    Except (Nat × List Char) ResearchResponse :=
  let all_items := collectedItems usa sam
  let errors := collabErrors usa sam
  if all_items = [] ∧ errors ≠ [] then
    .error (502, List.intercalate (lit "; ") errors)
  else if all_items = [] then
    .ok ⟨.arr [], all_items.length, samStatus sam, errors⟩
  else
    match scoreFn all_items with
    | .ok scored => .ok ⟨scored, all_items.length, samStatus sam, errors⟩
    | .error e =>
        .ok ⟨.arr [], all_items.length, samStatus sam,
          errors ++ [lit "Scoring error: " ++ e]⟩

/-- Whether the endpoint aborted with a surfaced `HTTPException`. -/
def researchAborts (r : Except (Nat × List Char) ResearchResponse) : Bool :=
  match r with
  | .error _ => true
  | .ok _ => false

/-! ### `truncate_rfp` (`proposal-agent/pdf_utils.py` lines 27-33) -/

/-- The fixed truncation marker appended to an over-long RFP text. -/
def TRUNC_MARKER : List Char := lit "\n\n[... RFP TRUNCATED FOR CONTEXT LIMITS ...]"

/-- `truncate_rfp(text, max_chars)`: texts of at most `max_chars` characters
pass through unchanged with `was_truncated = False`; longer texts are cut to
the first `max_chars` characters plus the fixed marker, with
`was_truncated = True`.  The source default for `max_chars` is `200_000`. -/
def truncate_rfp (text : List Char) (max_chars : Nat) : List Char × Bool :=
  if text.length ≤ max_chars then (text, false)
  else (text.take max_chars ++ TRUNC_MARKER, true)

/-! ### Helper lemmas: the stable descending sort -/

/-- Whether one array element goes through the scorer sort without an
exception: it is a dict and its (defaulted) sort key compares as a number. -/
def scoreItemOk (x : JVal) : Bool :=
  match x with
  | .obj fs => (keyAsInt ((lookupField fs (lit "pursuit_score")).getD (.num 0))).isSome
  | _ => false

/-- Total version of `pursuitKey` for well-formed elements. -/
def pursuitDefault (x : JVal) : JVal :=
  match x with
  | .obj fs => (lookupField fs (lit "pursuit_score")).getD (.num 0)
  | _ => .null

/-- Whether an element carries an explicit `pursuit_score` key. -/
def hasPursuit (x : JVal) : Bool :=
  match x with
  | .obj fs => (lookupField fs (lit "pursuit_score")).isSome
  | _ => false

/-- Whether an optional boundary character of a candidate JSON text is
present and is neither whitespace nor a backtick — true of the first and
last character of every stripped JSON text (which starts with one of
`[ { " t f n -` or a digit and ends with one of `] } "` or a letter or
digit). -/
def goodEnd (o : Option Char) : Bool :=
  match o with
  | some c => !(isPyWs c) && !(c == '\x60')
  | none => false

/-! ### Concrete evaluations of the embedded operations -/

example : cleanReply (lit "```json\n[1]\n```") = lit "[1]" := by decide

example : cleanReply (lit "```JSON\n5\n```") = lit "JSON\n5" := by decide

example : cleanReply (lit "  hi  ") = lit "hi" := by decide

example : jdumps (.obj [(lit "text", .str (lit "Hi"))]) = lit "\x7b\"text\": \"Hi\"\x7d" := by decide

example : jdumpsIndent 0 (.arr [.null, .num 3]) = lit "[\n  null,\n  3\n]" := by decide

example : jsonLoads (lit "5") = some (.num 5) := by decide

example : jsonLoads (lit "JSON\n5") = none := by decide

example : jsonLoads (lit " [1, true, \"a\", null] ") =
    some (.arr [.num 1, .bool true, .str (lit "a"), .null]) := by decide

example : jsonLoads (lit "\x7b\"a\": -2\x7d") = some (.obj [(lit "a", .num (-2))]) := by decide

example : jsonLoads (jdumps (.obj [(lit "k", .arr [.str (lit "x\ny"), .bool false])])) =
    some (.obj [(lit "k", .arr [.str (lit "x\ny"), .bool false])]) := by decide

example : jsonLoads (lit "01") = none := by decide

example :
    build_market_context (.obj [(lit "results",
      .arr [.obj [(lit "name", .str (lit "Navy")), (lit "aggregated_amount", .num 1234567)]])]) =
    .ok (lit "Top DoD sub-agencies by contract spend (selected NAICS):\n  - Navy: $1,234,567") := by
  decide

theorem insertDesc_perm (p : JVal × Int) (l : List (JVal × Int)) :
    (insertDesc p l).Perm (p :: l) := by
  induction l with
  | nil => simp [insertDesc]
  | cons q qs ih =>
      by_cases h : q.2 ≤ p.2
      · simp [insertDesc, h]
      · simp only [insertDesc, if_neg h]
        exact (ih.cons q).trans (List.Perm.swap p q qs)

theorem sortDesc_perm (l : List (JVal × Int)) : (sortDesc l).Perm l := by
  induction l with
  | nil => simp [sortDesc]
  | cons x xs ih =>
      exact (insertDesc_perm x (sortDesc xs)).trans (ih.cons x)

theorem mem_insertDesc {x p : JVal × Int} {l : List (JVal × Int)} :
    x ∈ insertDesc p l ↔ x = p ∨ x ∈ l := by
  rw [(insertDesc_perm p l).mem_iff]
  simp

theorem insertDesc_sorted (p : JVal × Int) (l : List (JVal × Int))
    (h : l.Pairwise (fun a b => b.2 ≤ a.2)) :
    (insertDesc p l).Pairwise (fun a b => b.2 ≤ a.2) := by
  induction l with
  | nil => simp [insertDesc]
  | cons q qs ih =>
      rcases List.pairwise_cons.mp h with ⟨hq, hqs⟩
      by_cases hle : q.2 ≤ p.2
      · simp only [insertDesc, if_pos hle]
        refine List.pairwise_cons.mpr ⟨?_, h⟩
        intro r hr
        rcases List.mem_cons.mp hr with rfl | hr
        · exact hle
        · exact le_trans (hq r hr) hle
      · simp only [insertDesc, if_neg hle]
        refine List.pairwise_cons.mpr ⟨?_, ih hqs⟩
        intro r hr
        rcases mem_insertDesc.mp hr with rfl | hr
        · exact le_of_lt (not_le.mp hle)
        · exact hq r hr

theorem sortDesc_sorted (l : List (JVal × Int)) :
    (sortDesc l).Pairwise (fun a b => b.2 ≤ a.2) := by
  induction l with
  | nil => simp [sortDesc]
  | cons x xs ih => exact insertDesc_sorted x (sortDesc xs) ih

theorem filter_insertDesc (p : JVal × Int) (l : List (JVal × Int)) (c : Int) :
    (insertDesc p l).filter (fun q => q.2 == c) =
      if p.2 == c then p :: l.filter (fun q => q.2 == c)
      else l.filter (fun q => q.2 == c) := by
  induction l with
  | nil =>
      by_cases hp : (p.2 == c) = true <;> simp [insertDesc, List.filter_cons, hp]
  | cons q qs ih =>
      by_cases hle : q.2 ≤ p.2
      · simp only [insertDesc, if_pos hle, List.filter_cons]
      · simp only [insertDesc, if_neg hle, List.filter_cons, ih]
        by_cases hp : (p.2 == c) = true
        · have hq : (q.2 == c) = false := by
            rw [beq_eq_false_iff_ne]
            intro heq
            refine hle ?_
            rw [beq_iff_eq] at hp
            rw [hp, heq]
          simp [hp, hq]
        · have hp2 : (p.2 == c) = false := by simpa using hp
          by_cases hq : (q.2 == c) = true <;> simp [hp2, hq]

theorem filter_sortDesc (l : List (JVal × Int)) (c : Int) :
    (sortDesc l).filter (fun q => q.2 == c) = l.filter (fun q => q.2 == c) := by
  induction l with
  | nil => rfl
  | cons x xs ih =>
      have : sortDesc (x :: xs) = insertDesc x (sortDesc xs) := rfl
      rw [this, filter_insertDesc, ih, List.filter_cons]

theorem snd_eq_of_mem_zip_map {p : JVal × Int} (f : JVal → Int) :
    ∀ {xs : List JVal}, p ∈ xs.zip (xs.map f) → p.2 = f p.1 := by
  intro xs
  induction xs with
  | nil => intro h; cases h
  | cons x xs ih =>
      intro h
      simp only [List.map_cons, List.zip_cons_cons, List.mem_cons] at h
      rcases h with rfl | h
      · rfl
      · exact ih h

theorem map_fst_zip_map (xs : List JVal) (f : JVal → Int) :
    (xs.zip (xs.map f)).map Prod.fst = xs :=
  List.map_fst_zip _ _ (by simp)

theorem pursuitKey_ok {x : JVal} (h : scoreItemOk x = true) :
    pursuitKey x = .ok (pursuitDefault x) := by
  cases x <;> simp_all [scoreItemOk, pursuitKey, pursuitDefault]

theorem keyAsInt_pursuitDefault {x : JVal} (h : scoreItemOk x = true) :
    keyAsInt (pursuitDefault x) = some (pursuitInt x) := by
  cases x with
  | obj fs =>
      simp only [scoreItemOk] at h
      simp only [pursuitDefault, pursuitInt]
      cases hv : (lookupField fs (lit "pursuit_score")).getD (.num 0) with
      | num n => simp [keyAsInt]
      | bool b => simp [keyAsInt]
      | null => rw [hv] at h; simp [keyAsInt] at h
      | str s => rw [hv] at h; simp [keyAsInt] at h
      | arr l => rw [hv] at h; simp [keyAsInt] at h
      | obj l => rw [hv] at h; simp [keyAsInt] at h
  | null => simp [scoreItemOk] at h
  | bool b => simp [scoreItemOk] at h
  | num n => simp [scoreItemOk] at h
  | str s => simp [scoreItemOk] at h
  | arr xs => simp [scoreItemOk] at h

theorem pursuitKeys_ok (xs : List JVal) (h : ∀ x ∈ xs, scoreItemOk x = true) :
    pursuitKeys xs = .ok (xs.map pursuitDefault) := by
  induction xs with
  | nil => rfl
  | cons x xs ih =>
      have hx := h x (List.mem_cons_self x xs)
      simp only [pursuitKeys, pursuitKey_ok hx,
        ih (fun y hy => h y (List.mem_cons_of_mem x hy)), List.map_cons]

theorem keysAsInts_ok (xs : List JVal) (h : ∀ x ∈ xs, scoreItemOk x = true) :
    keysAsInts (xs.map pursuitDefault) = some (xs.map pursuitInt) := by
  induction xs with
  | nil => rfl
  | cons x xs ih =>
      have hx := h x (List.mem_cons_self x xs)
      simp only [List.map_cons, keysAsInts, keyAsInt_pursuitDefault hx,
        ih (fun y hy => h y (List.mem_cons_of_mem x hy))]

theorem scorePost_arr (xs : List JVal) (h : ∀ x ∈ xs, scoreItemOk x = true) :
    scorePost (.arr xs) = .ok (.arr (pySortedDesc xs)) := by
  simp only [scorePost, pursuitKeys_ok xs h, keysAsInts_ok xs h, pySortedDesc]

theorem pySortedDesc_perm (xs : List JVal) : (pySortedDesc xs).Perm xs := by
  unfold pySortedDesc
  have h1 := (sortDesc_perm (xs.zip (xs.map pursuitInt))).map Prod.fst
  rwa [map_fst_zip_map] at h1

theorem pySortedDesc_sorted (xs : List JVal) :
    (pySortedDesc xs).Pairwise (fun a b => pursuitInt b ≤ pursuitInt a) := by
  unfold pySortedDesc
  rw [List.pairwise_map]
  have hs := sortDesc_sorted (xs.zip (xs.map pursuitInt))
  refine hs.imp_of_mem ?_
  intro a b ha hb hr
  have haz : a ∈ xs.zip (xs.map pursuitInt) := (sortDesc_perm _).mem_iff.mp ha
  have hbz : b ∈ xs.zip (xs.map pursuitInt) := (sortDesc_perm _).mem_iff.mp hb
  have ha2 := snd_eq_of_mem_zip_map pursuitInt haz
  have hb2 := snd_eq_of_mem_zip_map pursuitInt hbz
  rw [ha2, hb2] at hr
  exact hr

theorem pySortedDesc_stable (xs : List JVal) (c : Int) :
    (pySortedDesc xs).filter (fun x => pursuitInt x == c) =
      xs.filter (fun x => pursuitInt x == c) := by
  unfold pySortedDesc
  rw [List.filter_map]
  have hc1 : (sortDesc (xs.zip (xs.map pursuitInt))).filter
        ((fun x => pursuitInt x == c) ∘ Prod.fst) =
      (sortDesc (xs.zip (xs.map pursuitInt))).filter (fun q => q.2 == c) := by
    refine List.filter_congr ?_
    intro q hq
    have hz : q ∈ xs.zip (xs.map pursuitInt) := (sortDesc_perm _).mem_iff.mp hq
    have h2 := snd_eq_of_mem_zip_map pursuitInt hz
    simp [h2]
  have hc2 : (xs.zip (xs.map pursuitInt)).filter (fun q => q.2 == c) =
      (xs.zip (xs.map pursuitInt)).filter ((fun x => pursuitInt x == c) ∘ Prod.fst) := by
    refine List.filter_congr ?_
    intro q hq
    have h2 := snd_eq_of_mem_zip_map pursuitInt hq
    simp [h2]
  rw [hc1, filter_sortDesc, hc2, ← List.filter_map, map_fst_zip_map]

theorem pursuitInt_of_not_hasPursuit {x : JVal} (h : hasPursuit x = false) :
    pursuitInt x = 0 := by
  cases x with
  | obj fs =>
      simp only [hasPursuit] at h
      have h2 : lookupField fs (lit "pursuit_score") = none := by
        cases hl : lookupField fs (lit "pursuit_score") with
        | none => rfl
        | some v => rw [hl] at h; simp at h
      simp [pursuitInt, h2]
  | null => rfl
  | bool b => rfl
  | num n => rfl
  | str s => rfl
  | arr l => rfl

theorem pySortedDesc_stable_default (xs : List JVal) :
    (pySortedDesc xs).filter (fun x => !(hasPursuit x)) =
      xs.filter (fun x => !(hasPursuit x)) := by
  have himp : ∀ x : JVal, (!(hasPursuit x)) = ((!(hasPursuit x)) && (pursuitInt x == 0)) := by
    intro x
    by_cases hhp : hasPursuit x = true
    · simp [hhp]
    · have hhp2 : hasPursuit x = false := by simpa using hhp
      simp [hhp2, pursuitInt_of_not_hasPursuit hhp2]
  calc (pySortedDesc xs).filter (fun x => !(hasPursuit x))
      = (pySortedDesc xs).filter (fun x => (!(hasPursuit x)) && (pursuitInt x == 0)) :=
        List.filter_congr (fun x _ => himp x)
    _ = ((pySortedDesc xs).filter (fun x => pursuitInt x == 0)).filter
          (fun x => !(hasPursuit x)) := by
        rw [List.filter_filter]
    _ = (xs.filter (fun x => pursuitInt x == 0)).filter (fun x => !(hasPursuit x)) := by
        rw [pySortedDesc_stable]
    _ = xs.filter (fun x => (!(hasPursuit x)) && (pursuitInt x == 0)) := by
        rw [List.filter_filter]
    _ = xs.filter (fun x => !(hasPursuit x)) :=
        (List.filter_congr (fun x _ => (himp x).symm))

theorem renderSpendLine_ok {r : JVal} (h : spendOk r = true) :
    renderSpendLine r = .ok (spendLine r) := by
  cases r with
  | obj fs =>
      simp only [spendOk] at h
      simp only [renderSpendLine, spendLine]
      cases hv : (lookupField fs (lit "aggregated_amount")).getD (.num 0) with
      | num n => rfl
      | bool b => rw [hv] at h; simp at h
      | null => rw [hv] at h; simp at h
      | str s => rw [hv] at h; simp at h
      | arr l => rw [hv] at h; simp at h
      | obj l => rw [hv] at h; simp at h
  | null => simp [spendOk] at h
  | bool b => simp [spendOk] at h
  | num n => simp [spendOk] at h
  | str s => simp [spendOk] at h
  | arr l => simp [spendOk] at h

theorem renderSpendLines_ok (l : List JVal) (h : ∀ r ∈ l, spendOk r = true) :
    renderSpendLines l = .ok (l.map spendLine) := by
  induction l with
  | nil => rfl
  | cons r rs ih =>
      have hr := h r (List.mem_cons_self r rs)
      simp only [renderSpendLines, renderSpendLine_ok hr,
        ih (fun y hy => h y (List.mem_cons_of_mem r hy)), List.map_cons]

/-! ### Claim theorems -/

/-- C5: For the empty input list, the batch scorer (score_opportunities)
returns the empty list immediately without making any model call.  The
provider seam `call` is universally quantified and the result is a constant,
so no property of the model call can influence it; the second conjunct makes
the independence explicit. -/
theorem c5_empty_input (call call2 : List Char → List Char → List Char) :
    score_opportunities call [] = .ok (.arr []) ∧
    score_opportunities call [] = score_opportunities call2 [] :=
  ⟨rfl, rfl⟩

/-- C10: truncate_rfp returns its input unchanged with was_truncated = False
for every text of at most 200,000 characters, and for every longer text
returns the first 200,000 characters followed by the fixed marker
"\n\n[... RFP TRUNCATED FOR CONTEXT LIMITS ...]" with was_truncated = True. -/
theorem c10_truncate_rfp (text : List Char) :
    (text.length ≤ 200000 → truncate_rfp text 200000 = (text, false)) ∧
    (200000 < text.length →
      truncate_rfp text 200000 = (text.take 200000 ++ TRUNC_MARKER, true)) := by
  constructor
  · intro h
    simp [truncate_rfp, h]
  · intro h
    rw [truncate_rfp, if_neg (by omega)]

/-- Witness for C10 at the concrete text "short text" (within the limit). -/
theorem c10_truncate_rfp_witness :
    truncate_rfp (lit "short text") 200000 = (lit "short text", false) :=
  (c10_truncate_rfp (lit "short text")).1 (by decide)

/-- C1 (amended): on JSON parse failure of the model reply, each
non-streaming step returns its parse-failure marker and never raises: the
batch scorer marker carries the first 300 characters of the cleaned raw
reply, while the requirements extractor and the capability matcher markers
carry the WHOLE cleaned raw reply (no 300-character truncation exists in
those two steps). -/
theorem c1_parse_failure_markers (reply : List Char)
    (h : jsonLoads (cleanReply reply) = none) :
    scoreReplyResult reply =
      .ok (.arr [.obj [(lit "parse_error", .str ((cleanReply reply).take 300))]]) ∧
    extractReplyResult reply = .obj [(lit "parse_error", .str (cleanReply reply))] ∧
    matchReplyResult reply = .obj [(lit "parse_error", .str (cleanReply reply))] := by
  refine ⟨?_, ?_, ?_⟩ <;>
    simp [scoreReplyResult, extractReplyResult, matchReplyResult, h]

set_option maxRecDepth 20000 in
/-- Counterexample to C1 as stated: a 400-character non-JSON reply makes the
requirements extractor return a marker carrying all 400 characters, not the
first ~300 — the marker value differs from the 300-character prefix the
claim requires. -/
theorem c1_counterexample :
    extractReplyResult (List.replicate 400 'x') =
      .obj [(lit "parse_error", .str (List.replicate 400 'x'))] ∧
    (List.replicate 400 'x').length = 400 ∧
    List.replicate 400 'x' ≠ (List.replicate 400 'x').take 300 := by
  decide

/-- Witness for C1 (amended) at the concrete non-JSON reply "not json". -/
theorem c1_parse_failure_markers_witness :
    scoreReplyResult (lit "not json") =
      .ok (.arr [.obj [(lit "parse_error",
        .str ((cleanReply (lit "not json")).take 300))]]) ∧
    extractReplyResult (lit "not json") =
      .obj [(lit "parse_error", .str (cleanReply (lit "not json")))] :=
  ⟨(c1_parse_failure_markers (lit "not json") (by decide)).1,
   (c1_parse_failure_markers (lit "not json") (by decide)).2.1⟩

/-- C6: for every input list with more than 30 entries, the prompt payload
(and with it the whole scoring call) depends only on the first 30 entries,
which appear in it in input order; entries beyond the 30th are dropped. -/
theorem c6_first_thirty (call : List Char → List Char → List Char)
    (ops : List JVal) (h : 30 < ops.length) :
    scoreUserPrompt ops = scoreUserPrompt (ops.take 30) ∧
    score_opportunities call ops = score_opportunities call (ops.take 30) ∧
    (ops.take 30).length = 30 ∧
    (∀ i, i < 30 → (ops.take 30)[i]? = ops[i]?) := by
  have hlen : (ops.take 30).length = 30 := by
    rw [List.length_take]
    omega
  have hprompt : scoreUserPrompt ops = scoreUserPrompt (ops.take 30) := by
    unfold scoreUserPrompt scoreDataStr
    rw [List.take_take, min_self]
  refine ⟨hprompt, ?_, hlen, ?_⟩
  · have hne : ops ≠ [] := by
      intro hc
      rw [hc] at h
      simp at h
    have hne2 : ops.take 30 ≠ [] := by
      intro hc
      rw [hc] at hlen
      simp at hlen
    rw [score_opportunities, score_opportunities, if_neg hne, if_neg hne2, hprompt]
  · intro i hi
    simp [List.getElem?_take, hi]

/-- Witness for C6 at a concrete 31-element list. -/
theorem c6_first_thirty_witness :
    scoreUserPrompt (List.replicate 31 JVal.null) =
      scoreUserPrompt ((List.replicate 31 JVal.null).take 30) ∧
    score_opportunities (fun _ u => u) (List.replicate 31 JVal.null) =
      score_opportunities (fun _ u => u) ((List.replicate 31 JVal.null).take 30) :=
  ⟨(c6_first_thirty (fun _ u => u) (List.replicate 31 JVal.null) (by decide)).1,
   (c6_first_thirty (fun _ u => u) (List.replicate 31 JVal.null) (by decide)).2.1⟩

/-- C2 (amended): both SSE streams always terminate with the literal
`data: [DONE]` line, and a mid-stream provider error adds one
`data: {"error": ...}` line right before the sentinel.  In the BD-research
composer every fragment line is `data: {"text": "<fragment>"}` as the claim
states; in the proposal composer the generator yields dicts, so each
fragment line is the double-wrapped `data: {"text": {"text": "<fragment>"}}`
and a normal end of stream adds a `data: {"text": {"stop_reason": ...}}`
line — the "text" value there is an object, not the fragment string. -/
theorem c2_sse_lines (s : StreamOutcome) (stop : JVal) :
    (bdEventStream s).getLast? = some (lit "data: [DONE]\n\n") ∧
    (proposalEventStream s stop).getLast? = some (lit "data: [DONE]\n\n") ∧
    (s.error = none →
      bdEventStream s =
        s.fragments.map (fun t =>
          lit "data: " ++ jdumps (.obj [(lit "text", .str t)]) ++ lit "\n\n")
          ++ [lit "data: [DONE]\n\n"]) ∧
    (∀ e, s.error = some e →
      bdEventStream s =
        s.fragments.map (fun t =>
          lit "data: " ++ jdumps (.obj [(lit "text", .str t)]) ++ lit "\n\n")
          ++ [lit "data: " ++ jdumps (.obj [(lit "error", .str e)]) ++ lit "\n\n",
              lit "data: [DONE]\n\n"]) ∧
    (s.error = none →
      proposalEventStream s stop =
        s.fragments.map (fun t =>
          lit "data: " ++ jdumps (.obj [(lit "text", .obj [(lit "text", .str t)])])
            ++ lit "\n\n")
          ++ [lit "data: "
                ++ jdumps (.obj [(lit "text", .obj [(lit "stop_reason", stop)])])
                ++ lit "\n\n",
              lit "data: [DONE]\n\n"]) ∧
    (∀ e, s.error = some e →
      proposalEventStream s stop =
        s.fragments.map (fun t =>
          lit "data: " ++ jdumps (.obj [(lit "text", .obj [(lit "text", .str t)])])
            ++ lit "\n\n")
          ++ [lit "data: " ++ jdumps (.obj [(lit "error", .str e)]) ++ lit "\n\n",
              lit "data: [DONE]\n\n"]) := by
  refine ⟨?_, ?_, ?_, ?_, ?_, ?_⟩
  · simp [bdEventStream, sseEventStream, stream_brief, List.getLast?_concat]
  · simp [proposalEventStream, sseEventStream, stream_draft, List.getLast?_concat]
  · intro h
    simp [bdEventStream, sseEventStream, stream_brief, h, List.map_map, Function.comp]
  · intro e h
    simp [bdEventStream, sseEventStream, stream_brief, h, List.map_map, Function.comp]
  · intro h
    simp [proposalEventStream, sseEventStream, stream_draft, h, List.map_map,
      Function.comp]
  · intro e h
    simp [proposalEventStream, sseEventStream, stream_draft, h, List.map_map,
      Function.comp]

/-- Counterexample to C2 as stated: with one delivered fragment "Hi" and a
normal end of stream, the proposal composer emits no line of the shape
`data: {"text": "Hi"}` at all — its first line wraps the fragment twice. -/
theorem c2_counterexample :
    (lit "data: " ++ jdumps (.obj [(lit "text", .str (lit "Hi"))]) ++ lit "\n\n") ∉
      proposalEventStream ⟨[lit "Hi"], none⟩ (.str (lit "end_turn")) ∧
    (proposalEventStream ⟨[lit "Hi"], none⟩ (.str (lit "end_turn"))).head? =
      some (lit "data: "
        ++ jdumps (.obj [(lit "text", .obj [(lit "text", .str (lit "Hi"))])])
        ++ lit "\n\n") := by
  decide

/-- Witness for C2 at the concrete fragment sequence ["Hello, ", "world."]
with a normal end of stream. -/
theorem c2_sse_lines_witness :
    bdEventStream ⟨[lit "Hello, ", lit "world."], none⟩ =
      [lit "data: " ++ jdumps (.obj [(lit "text", .str (lit "Hello, "))]) ++ lit "\n\n",
       lit "data: " ++ jdumps (.obj [(lit "text", .str (lit "world."))]) ++ lit "\n\n",
       lit "data: [DONE]\n\n"] :=
  ((c2_sse_lines ⟨[lit "Hello, ", lit "world."], none⟩ .null).2.2.1 rfl).trans (by decide)

/-- C8 (amended): the endpoint aborts with the surfaced 502 error exactly
when the collaborator phase ends with zero usable records AND a non-empty
error list — a list either collaborator may have fed (in particular, a
USASpending success with zero records combined with a SAM.gov failure also
aborts).  Whenever records exist, a SAM.gov failure is downgraded: the
endpoint returns normally, reports the `sam_status` string and carries the
SAM.gov entry in the returned error list. -/
theorem c8_abort_policy (usa : Except (List Char) (List JVal)) (sam : SamCall)
    (scoreFn : List JVal → Except (List Char) JVal) :
    (researchAborts (research usa sam scoreFn) = true ↔
      (collectedItems usa sam = [] ∧ collabErrors usa sam ≠ [])) ∧
    (collectedItems usa sam ≠ [] →
      ∃ r, research usa sam scoreFn = .ok r ∧
        r.sam_status = samStatus sam ∧
        r.raw_count = (collectedItems usa sam).length ∧
        (∀ m ∈ samErrors sam, m ∈ r.errors)) := by
  constructor
  · simp only [research, researchAborts]
    by_cases hc : collectedItems usa sam = [] ∧ collabErrors usa sam ≠ []
    · rw [if_pos hc]
      simpa using hc
    · rw [if_neg hc]
      by_cases h2 : collectedItems usa sam = []
      · rw [if_pos h2]
        simpa using hc
      · rw [if_neg h2]
        cases hsf : scoreFn (collectedItems usa sam) with
        | ok v => simpa using hc
        | error e => simpa using hc
  · intro hne
    simp only [research]
    have hcond : ¬(collectedItems usa sam = [] ∧ collabErrors usa sam ≠ []) := by
      intro hc
      exact hne hc.1
    rw [if_neg hcond, if_neg hne]
    cases hsf : scoreFn (collectedItems usa sam) with
    | ok v =>
        refine ⟨_, rfl, rfl, rfl, ?_⟩
        intro m hm
        exact List.mem_append_right _ hm
    | error e =>
        refine ⟨_, rfl, rfl, rfl, ?_⟩
        intro m hm
        exact List.mem_append_left _ (List.mem_append_right _ hm)

/-- Counterexample to C8 as stated: USASpending succeeds but returns zero
records (no hard failure of the mandatory collaborator), the optional
SAM.gov call raises — and the endpoint still aborts with the 502 error, so
the optional collaborator alone triggered the abort. -/
theorem c8_counterexample :
    research (.ok []) (.exn (lit "connection reset")) (fun items => .ok (.arr items)) =
      .error (502, lit "SAM.gov error: connection reset") := by
  decide

/-- Witness for C8 (amended) at a concrete run: one USASpending record and a
SAM.gov exception — the endpoint proceeds and reports the failure. -/
theorem c8_abort_policy_witness :
    ∃ r, research (.ok [JVal.null]) (.exn (lit "boom")) (fun _ => .ok (.arr [])) = .ok r ∧
      r.sam_status = samStatus (.exn (lit "boom")) ∧
      r.raw_count = (collectedItems (.ok [JVal.null]) (.exn (lit "boom"))).length ∧
      (∀ m ∈ samErrors (.exn (lit "boom")), m ∈ r.errors) :=
  (c8_abort_policy (.ok [JVal.null]) (.exn (lit "boom")) (fun _ => .ok (.arr []))).2
    (by decide)

/-- C7: the market context builder is a pure function; an absent `results`
key and an empty `results` list both yield exactly the sentinel string, and
a non-empty list of spend records renders at most its first ten entries, one
line per record, each amount formatted with thousands separators. -/
theorem c7_market_context :
    (∀ fs, lookupField fs (lit "results") = none →
      build_market_context (.obj fs) = .ok (lit "No aggregate spending data available.")) ∧
    (∀ fs, lookupField fs (lit "results") = some (.arr []) →
      build_market_context (.obj fs) = .ok (lit "No aggregate spending data available.")) ∧
    (∀ fs rs, lookupField fs (lit "results") = some (.arr rs) → rs ≠ [] →
      (∀ r ∈ rs.take 10, spendOk r = true) →
      build_market_context (.obj fs) =
        .ok (List.intercalate (lit "\n") (marketHeader :: (rs.take 10).map spendLine))) := by
  refine ⟨?_, ?_, ?_⟩
  · intro fs h
    simp [build_market_context, h, pyFalsy]
  · intro fs h
    simp [build_market_context, h, pyFalsy]
  · intro fs rs h hne hok
    have hfal : pyFalsy (.arr rs) = false := by
      simp [pyFalsy, hne]
    simp [build_market_context, h, hfal, renderSpendLines_ok (rs.take 10) hok]

/-- Witness for C7 at the single record `{name: "Navy",
aggregated_amount: 1234567}`: the rendered text contains the line fragment
`Navy: $1,234,567`. -/
theorem c7_market_context_witness :
    build_market_context (.obj [(lit "results",
        .arr [.obj [(lit "name", .str (lit "Navy")),
                    (lit "aggregated_amount", .num 1234567)]])]) =
      .ok (lit "Top DoD sub-agencies by contract spend (selected NAICS):\n  - Navy: $1,234,567") ∧
    (lit "Navy: $1,234,567") <:+:
      (lit "Top DoD sub-agencies by contract spend (selected NAICS):\n  - Navy: $1,234,567") := by
  constructor
  · exact (c7_market_context.2.2
      [(lit "results", .arr [.obj [(lit "name", .str (lit "Navy")),
        (lit "aggregated_amount", .num 1234567)]])]
      [.obj [(lit "name", .str (lit "Navy")), (lit "aggregated_amount", .num 1234567)]]
      (by decide) (by decide) (by decide)).trans (by decide)
  · decide

/-- C4 (amended): a reply parsing to a JSON array whose elements are all
dicts with numeric (or absent, defaulting to 0) pursuit_score values is
returned sorted descending by that score, stably (a permutation, pairwise
descending, equal-score classes in input order); a reply parsing to a
non-array JSON value is returned unchanged.  (An array containing a
non-dict element instead raises `AttributeError`, see the counterexample.) -/
theorem c4_scorer_sort (reply : List Char) (v : JVal)
    (hp : jsonLoads (cleanReply reply) = some v) :
    (∀ xs, v = .arr xs → (∀ x ∈ xs, scoreItemOk x = true) →
      scoreReplyResult reply = .ok (.arr (pySortedDesc xs)) ∧
      (pySortedDesc xs).Perm xs ∧
      (pySortedDesc xs).Pairwise (fun a b => pursuitInt b ≤ pursuitInt a) ∧
      (∀ c : Int, (pySortedDesc xs).filter (fun x => pursuitInt x == c) =
        xs.filter (fun x => pursuitInt x == c))) ∧
    ((∀ xs, v ≠ .arr xs) → scoreReplyResult reply = .ok v) := by
  constructor
  · intro xs hv hok
    subst hv
    refine ⟨?_, pySortedDesc_perm xs, pySortedDesc_sorted xs,
      fun c => pySortedDesc_stable xs c⟩
    simp [scoreReplyResult, hp, scorePost_arr xs hok]
  · intro hnot
    have hpost : scorePost v = .ok v := by
      cases v with
      | arr xs => exact absurd rfl (hnot xs)
      | null => rfl
      | bool b => rfl
      | num n => rfl
      | str s => rfl
      | obj fs => rfl
    simp [scoreReplyResult, hp, hpost]

/-- Counterexample to C4 as stated: the reply "[1, 2]" parses as a JSON
array, but the scorer raises `AttributeError` (`(1).get` does not exist, and
the `except` clause only catches `json.JSONDecodeError`) instead of
returning the array sorted. -/
theorem c4_counterexample :
    jsonLoads (cleanReply (lit "[1, 2]")) = some (.arr [.num 1, .num 2]) ∧
    scoreReplyResult (lit "[1, 2]") = .error .attributeError := by
  decide

/-- Witness for C4 (amended) at a concrete reply with a duplicated score:
the element with score 5 moves first and the two score-1 elements keep
their input order ("a" before "b"). -/
theorem c4_scorer_sort_witness :
    scoreReplyResult (jdumps (.arr
        [.obj [(lit "pursuit_score", .num 1), (lit "id", .str (lit "a"))],
         .obj [(lit "pursuit_score", .num 5)],
         .obj [(lit "pursuit_score", .num 1), (lit "id", .str (lit "b"))]])) =
      .ok (.arr (pySortedDesc
        [.obj [(lit "pursuit_score", .num 1), (lit "id", .str (lit "a"))],
         .obj [(lit "pursuit_score", .num 5)],
         .obj [(lit "pursuit_score", .num 1), (lit "id", .str (lit "b"))]])) ∧
    pySortedDesc
        [.obj [(lit "pursuit_score", .num 1), (lit "id", .str (lit "a"))],
         .obj [(lit "pursuit_score", .num 5)],
         .obj [(lit "pursuit_score", .num 1), (lit "id", .str (lit "b"))]] =
      [.obj [(lit "pursuit_score", .num 5)],
       .obj [(lit "pursuit_score", .num 1), (lit "id", .str (lit "a"))],
       .obj [(lit "pursuit_score", .num 1), (lit "id", .str (lit "b"))]] :=
  ⟨((c4_scorer_sort _ _ (by decide)).1 _ rfl (by decide)).1, by decide⟩

/-- C9: in the final descending sort, every element lacking a
`pursuit_score` key is treated as score 0, hence no such element ever
precedes an element with positive score, and the defaulted elements keep
their relative input order. -/
theorem c9_default_zero (reply : List Char) (xs : List JVal)
    (hp : jsonLoads (cleanReply reply) = some (.arr xs))
    (hok : ∀ x ∈ xs, scoreItemOk x = true) :
    scoreReplyResult reply = .ok (.arr (pySortedDesc xs)) ∧
    (∀ x : JVal, hasPursuit x = false → pursuitInt x = 0) ∧
    (pySortedDesc xs).Pairwise (fun a b => ¬(pursuitInt a = 0 ∧ 0 < pursuitInt b)) ∧
    (pySortedDesc xs).filter (fun x => !(hasPursuit x)) =
      xs.filter (fun x => !(hasPursuit x)) := by
  refine ⟨?_, fun x h => pursuitInt_of_not_hasPursuit h, ?_,
    pySortedDesc_stable_default xs⟩
  · simp [scoreReplyResult, hp, scorePost_arr xs hok]
  · refine (pySortedDesc_sorted xs).imp ?_
    intro a b hle hcon
    obtain ⟨h1, h2⟩ := hcon
    omega

/-- Witness for C9 at a concrete reply: the two elements without a
`pursuit_score` key sort below the scored ones and keep their order. -/
theorem c9_default_zero_witness :
    scoreReplyResult (jdumps (.arr
        [.obj [(lit "pursuit_score", .num 5)],
         .obj [],
         .obj [(lit "id", .str (lit "a"))],
         .obj [(lit "pursuit_score", .num 3)]])) =
      .ok (.arr (pySortedDesc
        [.obj [(lit "pursuit_score", .num 5)],
         .obj [],
         .obj [(lit "id", .str (lit "a"))],
         .obj [(lit "pursuit_score", .num 3)]])) ∧
    pySortedDesc
        [.obj [(lit "pursuit_score", .num 5)],
         .obj [],
         .obj [(lit "id", .str (lit "a"))],
         .obj [(lit "pursuit_score", .num 3)]] =
      [.obj [(lit "pursuit_score", .num 5)],
       .obj [(lit "pursuit_score", .num 3)],
       .obj [],
       .obj [(lit "id", .str (lit "a"))]] :=
  ⟨(c9_default_zero _ _ (by decide) (by decide)).1, by decide⟩

/-! ### Helper lemmas: fence stripping (C3) -/

theorem isPyWs_newline : isPyWs '\n' = true := rfl

theorem isPyWs_backtick : isPyWs '\x60' = false := rfl

theorem pyStrip_eq_self {cs : List Char}
    (h1 : ∀ c, cs.head? = some c → isPyWs c = false)
    (h2 : ∀ c, cs.getLast? = some c → isPyWs c = false) :
    pyStrip cs = cs := by
  cases cs with
  | nil => rfl
  | cons a t =>
      have ha : isPyWs a = false := h1 a rfl
      have hd1 : (a :: t).dropWhile isPyWs = a :: t := by
        simp [List.dropWhile_cons, ha]
      rw [pyStrip, hd1]
      cases hr : (a :: t).reverse with
      | nil => simp at hr
      | cons b u =>
          have hb : isPyWs b = false := by
            apply h2
            rw [List.getLast?_eq_head?_reverse, hr]
            rfl
          have hd2 : (b :: u).dropWhile isPyWs = b :: u := by
            simp [List.dropWhile_cons, hb]
          rw [hd2, ← hr, List.reverse_reverse]

theorem stripLeadingFence_eq_self {cs : List Char}
    (h : ∀ c, cs.head? = some c → c ≠ '\x60') :
    stripLeadingFence cs = cs := by
  cases cs with
  | nil => rfl
  | cons a t =>
      have ha : a ≠ '\x60' := h a rfl
      unfold stripLeadingFence
      split <;> simp_all

theorem stripTrailingFence_eq_self {cs : List Char}
    (h : ∀ c, cs.getLast? = some c → c ≠ '\x60') :
    stripTrailingFence cs = cs := by
  unfold stripTrailingFence
  cases hr : cs.reverse with
  | nil => rfl
  | cons b u =>
      have hb : b ≠ '\x60' := by
        apply h
        rw [List.getLast?_eq_head?_reverse, hr]
        rfl
      split <;> simp_all

theorem cleanReply_eq_self {v : List Char}
    (hh : ∀ c, v.head? = some c → isPyWs c = false ∧ c ≠ '\x60')
    (hl : ∀ c, v.getLast? = some c → isPyWs c = false ∧ c ≠ '\x60') :
    cleanReply v = v := by
  rw [cleanReply, pyStrip_eq_self (fun c hc => (hh c hc).1) (fun c hc => (hl c hc).1),
    stripLeadingFence_eq_self (fun c hc => (hh c hc).2),
    stripTrailingFence_eq_self (fun c hc => (hl c hc).2)]

theorem cleanReply_fenced_json (v : List Char) (hne : v ≠ [])
    (hh : ∀ c, v.head? = some c → isPyWs c = false)
    (hl : ∀ c, v.getLast? = some c → isPyWs c = false) :
    cleanReply ('\x60' :: '\x60' :: '\x60' :: 'j' :: 's' :: 'o' :: 'n' :: '\n' ::
      (v ++ ['\n', '\x60', '\x60', '\x60'])) = v := by
  obtain ⟨a, t, rfl⟩ := List.exists_cons_of_ne_nil hne
  have ha : isPyWs a = false := hh a rfl
  have hner : (a :: t).reverse ≠ [] := by simp
  obtain ⟨b, u, hr⟩ := List.exists_cons_of_ne_nil hner
  have hb : isPyWs b = false := by
    apply hl
    rw [List.getLast?_eq_head?_reverse, hr]
    rfl
  have hstrip : pyStrip ('\x60' :: '\x60' :: '\x60' :: 'j' :: 's' :: 'o' :: 'n' :: '\n' ::
      ((a :: t) ++ ['\n', '\x60', '\x60', '\x60'])) =
      '\x60' :: '\x60' :: '\x60' :: 'j' :: 's' :: 'o' :: 'n' :: '\n' ::
        ((a :: t) ++ ['\n', '\x60', '\x60', '\x60']) := by
    apply pyStrip_eq_self
    · intro c hc
      simp only [List.head?_cons, Option.some.injEq] at hc
      rw [← hc]
      rfl
    · intro c hc
      rw [List.getLast?_eq_head?_reverse] at hc
      simp [List.reverse_append] at hc
      rw [← hc]
      rfl
  rw [cleanReply, hstrip]
  have hlead : stripLeadingFence ('\x60' :: '\x60' :: '\x60' :: 'j' :: 's' :: 'o' :: 'n' :: '\n' ::
      ((a :: t) ++ ['\n', '\x60', '\x60', '\x60'])) =
      (a :: t) ++ ['\n', '\x60', '\x60', '\x60'] := by
    have h0 : stripLeadingFence ('\x60' :: '\x60' :: '\x60' :: 'j' :: 's' :: 'o' :: 'n' :: '\n' ::
        ((a :: t) ++ ['\n', '\x60', '\x60', '\x60'])) =
        ('\n' :: ((a :: t) ++ ['\n', '\x60', '\x60', '\x60'])).dropWhile isPyWs := rfl
    rw [h0, List.dropWhile_cons, isPyWs_newline, List.cons_append, List.dropWhile_cons, ha]
    simp
  rw [hlead]
  have htrail : stripTrailingFence ((a :: t) ++ ['\n', '\x60', '\x60', '\x60']) = a :: t := by
    unfold stripTrailingFence
    have hrv : ((a :: t) ++ ['\n', '\x60', '\x60', '\x60']).reverse =
        '\x60' :: '\x60' :: '\x60' :: '\n' :: (a :: t).reverse := by
      simp
    rw [hrv]
    show (('\n' :: (a :: t).reverse).dropWhile isPyWs).reverse = a :: t
    rw [List.dropWhile_cons, isPyWs_newline]
    simp only [if_true]
    rw [hr]
    have hd : (b :: u).dropWhile isPyWs = b :: u := by
      simp [List.dropWhile_cons, hb]
    rw [hd, ← hr, List.reverse_reverse]
  rw [htrail]

theorem cleanReply_fenced_plain (v : List Char) (hne : v ≠ [])
    (hh : ∀ c, v.head? = some c → isPyWs c = false)
    (hl : ∀ c, v.getLast? = some c → isPyWs c = false) :
    cleanReply ('\x60' :: '\x60' :: '\x60' :: '\n' ::
      (v ++ ['\n', '\x60', '\x60', '\x60'])) = v := by
  obtain ⟨a, t, rfl⟩ := List.exists_cons_of_ne_nil hne
  have ha : isPyWs a = false := hh a rfl
  have hner : (a :: t).reverse ≠ [] := by simp
  obtain ⟨b, u, hr⟩ := List.exists_cons_of_ne_nil hner
  have hb : isPyWs b = false := by
    apply hl
    rw [List.getLast?_eq_head?_reverse, hr]
    rfl
  have hstrip : pyStrip ('\x60' :: '\x60' :: '\x60' :: '\n' ::
      ((a :: t) ++ ['\n', '\x60', '\x60', '\x60'])) =
      '\x60' :: '\x60' :: '\x60' :: '\n' ::
        ((a :: t) ++ ['\n', '\x60', '\x60', '\x60']) := by
    apply pyStrip_eq_self
    · intro c hc
      simp only [List.head?_cons, Option.some.injEq] at hc
      rw [← hc]
      rfl
    · intro c hc
      rw [List.getLast?_eq_head?_reverse] at hc
      simp [List.reverse_append] at hc
      rw [← hc]
      rfl
  rw [cleanReply, hstrip]
  have hlead : stripLeadingFence ('\x60' :: '\x60' :: '\x60' :: '\n' ::
      ((a :: t) ++ ['\n', '\x60', '\x60', '\x60'])) =
      (a :: t) ++ ['\n', '\x60', '\x60', '\x60'] := by
    have h0 : stripLeadingFence ('\x60' :: '\x60' :: '\x60' :: '\n' ::
        ((a :: t) ++ ['\n', '\x60', '\x60', '\x60'])) =
        ('\n' :: ((a :: t) ++ ['\n', '\x60', '\x60', '\x60'])).dropWhile isPyWs := rfl
    rw [h0, List.dropWhile_cons, isPyWs_newline, List.cons_append, List.dropWhile_cons, ha]
    simp
  rw [hlead]
  have htrail : stripTrailingFence ((a :: t) ++ ['\n', '\x60', '\x60', '\x60']) = a :: t := by
    unfold stripTrailingFence
    have hrv : ((a :: t) ++ ['\n', '\x60', '\x60', '\x60']).reverse =
        '\x60' :: '\x60' :: '\x60' :: '\n' :: (a :: t).reverse := by
      simp
    rw [hrv]
    show (('\n' :: (a :: t).reverse).dropWhile isPyWs).reverse = a :: t
    rw [List.dropWhile_cons, isPyWs_newline]
    simp only [if_true]
    rw [hr]
    have hd : (b :: u).dropWhile isPyWs = b :: u := by
      simp [List.dropWhile_cons, hb]
    rw [hd, ← hr, List.reverse_reverse]
  rw [htrail]

/-- C3 (amended): a reply consisting of a JSON text v wrapped in a leading
fence line with the LOWERCASE `json` tag (or with no tag) and a trailing
fence line is cleaned to exactly v, and the bare reply v is cleaned to
itself, so both parse to the same value.  The hypotheses — v is non-empty
and neither starts nor ends with whitespace or a backtick — hold for every
stripped JSON text.  The matching is case-sensitive, not case-insensitive as
the claim states: see the counterexample with an uppercase `JSON` tag. -/
theorem c3_fence_stripping (v : List Char)
    (hh : goodEnd v.head? = true) (hl : goodEnd v.getLast? = true) :
    cleanReply ('\x60' :: '\x60' :: '\x60' :: 'j' :: 's' :: 'o' :: 'n' :: '\n' ::
      (v ++ ['\n', '\x60', '\x60', '\x60'])) = v ∧
    cleanReply ('\x60' :: '\x60' :: '\x60' :: '\n' ::
      (v ++ ['\n', '\x60', '\x60', '\x60'])) = v ∧
    cleanReply v = v ∧
    jsonLoads (cleanReply ('\x60' :: '\x60' :: '\x60' :: 'j' :: 's' :: 'o' :: 'n' :: '\n' ::
      (v ++ ['\n', '\x60', '\x60', '\x60']))) = jsonLoads (cleanReply v) ∧
    jsonLoads (cleanReply ('\x60' :: '\x60' :: '\x60' :: '\n' ::
      (v ++ ['\n', '\x60', '\x60', '\x60']))) = jsonLoads (cleanReply v) := by
  have hne : v ≠ [] := by
    intro hc
    rw [hc] at hh
    simp [goodEnd] at hh
  have hhp : ∀ c, v.head? = some c → isPyWs c = false ∧ c ≠ '\x60' := by
    intro c hc
    rw [hc] at hh
    simp [goodEnd] at hh
    exact hh
  have hlp : ∀ c, v.getLast? = some c → isPyWs c = false ∧ c ≠ '\x60' := by
    intro c hc
    rw [hc] at hl
    simp [goodEnd] at hl
    exact hl
  have h1 := cleanReply_fenced_json v hne (fun c hc => (hhp c hc).1) (fun c hc => (hlp c hc).1)
  have h2 := cleanReply_fenced_plain v hne (fun c hc => (hhp c hc).1) (fun c hc => (hlp c hc).1)
  have h3 := cleanReply_eq_self hhp hlp
  exact ⟨h1, h2, h3, by rw [h1, h3], by rw [h2, h3]⟩

/-- Counterexample to C3 as stated: the fence tag matching is
case-sensitive.  The reply wrapping "5" in a fence tagged `JSON` (uppercase)
is cleaned to "JSON\n5", which does not parse, while the bare reply "5"
parses to the number 5 — the two do not parse to the same value. -/
theorem c3_counterexample :
    cleanReply (lit "```JSON\n5\n```") = lit "JSON\n5" ∧
    jsonLoads (cleanReply (lit "```JSON\n5\n```")) = none ∧
    jsonLoads (cleanReply (lit "5")) = some (.num 5) ∧
    jsonLoads (cleanReply (lit "```JSON\n5\n```")) ≠ jsonLoads (cleanReply (lit "5")) := by
  decide

/-- Witness for C3 (amended) at the concrete JSON text "[1, 2]". -/
theorem c3_fence_stripping_witness :
    cleanReply ('\x60' :: '\x60' :: '\x60' :: 'j' :: 's' :: 'o' :: 'n' :: '\n' ::
      (lit "[1, 2]" ++ ['\n', '\x60', '\x60', '\x60'])) = lit "[1, 2]" ∧
    jsonLoads (cleanReply ('\x60' :: '\x60' :: '\x60' :: 'j' :: 's' :: 'o' :: 'n' :: '\n' ::
      (lit "[1, 2]" ++ ['\n', '\x60', '\x60', '\x60']))) =
      jsonLoads (cleanReply (lit "[1, 2]")) :=
  ⟨(c3_fence_stripping (lit "[1, 2]") (by decide) (by decide)).1,
   (c3_fence_stripping (lit "[1, 2]") (by decide) (by decide)).2.2.2.1⟩
